import Mathlib

/-!
Verification of the eval-rs core: a shallow embedding of the bytecode
virtual machine (src/vm.rs), the single-pass compiler (src/compiler.rs)
and the bump-allocating arena (src/memory.rs), together with theorems
checking the natural-language specification against this embedding.

Modelling conventions:
* machine integers are Nat/Int (register indices and instruction
  addresses cannot overflow in any execution considered here);
* fallible Rust code returning Result is embedded as explicit result
  inductives carrying either a value or the error message built by
  err_eval;
* in-place mutation (the register stack, the globals dict, the heap,
  the instruction pointer) is embedded as explicit state passing over a
  VMState record;
* several modules referenced by vm.rs and compiler.rs (bytecode.rs,
  taggedptr.rs, safeptr.rs, pair.rs, list.rs, dict.rs, symbol.rs) are
  not part of this source tree; where a definition depends on them it
  is modelled from the spec and its doc comment says so.
-/

namespace EvalRs

/-- Modelled from the spec: taggedptr.rs / safeptr.rs are not under
src/.  A Tagged Value is either an immediate (`Nil`, or an interned
`Symbol`, identity-comparable by name because interning guarantees
identical strings yield identity-equal symbols) or a pointer to a heap
object, identity-comparable by address.  Equality of `Value` terms is
exactly tagged-pointer identity (spec section 3 invariant). -/
inductive Value where
  | nil
  | sym (name : String)
  | ref (addr : Nat)
deriving DecidableEq, Repr

/-- Modelled from the spec: heap object payloads (pair.rs and the
number type are not under src/).  A Pair is a mutable two-slot cons
cell; a number is a heap-allocated atom distinct from Nil/Pair. -/
inductive Cell where
  | pairCell (first second : Value)
  | numCell (n : Int)
deriving DecidableEq, Repr

/-- Modelled from the spec: the arena heap as reachable through tagged
pointers; address = list index, allocation = append (objects are never
moved or freed). -/
abbrev Heap := List Cell

/-- Shallow view of dereferencing a Tagged Value, as the Rust
`match *tagged_ptr` does: the discriminant is Nil / Symbol / Pair /
Number; `invalid` stands for a dangling address, which cannot arise in
the source's type discipline. -/
inductive ValView where
  | nil
  | sym (name : String)
  | pair (first second : Value)
  | num (n : Int)
  | invalid
deriving DecidableEq, Repr

/-- Dereference a Tagged Value against a heap. -/
def derefVal (h : Heap) (v : Value) : ValView :=
  match v with
  | .nil => .nil
  | .sym s => .sym s
  | .ref a =>
    match h[a]? with
    | some (.pairCell f s) => .pair f s
    | some (.numCell n) => .num n
    | none => .invalid

/-- Dereference a Tagged Value as a Pair, `none` when it is anything
else (this is the `Value::Pair(p)` pattern of the CAR/CDR arms). -/
def derefPair (h : Heap) (v : Value) : Option (Value × Value) :=
  match v with
  | .ref a =>
    match h[a]? with
    | some (.pairCell f s) => some (f, s)
    | _ => none
  | _ => none

/-- Modelled from the spec: bytecode.rs is not under src/.  One
instruction carries its opcode together with its register operands,
literal index or relative jump offset (`Opcode` plus operand fields of
the instruction word).  `nilTest` is `Opcode::NIL`. -/
inductive Instr where
  | halt
  | ret (acc : Nat)
  | loadlit (acc lit : Nat)
  | nilTest (acc r1 : Nat)
  | atom (acc r1 : Nat)
  | car (acc r1 : Nat)
  | cdr (acc r1 : Nat)
  | cons (acc r1 r2 : Nat)
  | eq (acc r1 r2 : Nat)
  | jmp (offset : Int)
  | jmpt (r1 : Nat) (offset : Int)
  | jmpnt (r1 : Nat) (offset : Int)
  | loadnil (r1 : Nat)
  | loadglobal (r1 : Nat)
  | storeglobal (acc r1 : Nat)
deriving DecidableEq, Repr

/-- Modelled from the spec: bytecode.rs is not under src/.  A ByteCode
object owns an append-only instruction sequence and an append-only
literal pool. -/
structure ByteCode where
  code : List Instr
  lits : List Value
deriving DecidableEq, Repr

/-- Modelled from the spec: the VM state.  list.rs (the register
stack) and dict.rs (the globals table) are not under src/; registers
are modelled as a total map index → Value and the globals dict as an
association list keyed by the interned symbol's name, newest binding
first.  `code`/`lits`/`ip` model the InstructionStream cursor over one
ByteCode object. -/
structure VMState where
  regs : Nat → Value
  heap : Heap
  globals : List (String × Value)
  code : List Instr
  lits : List Value
  ip : Nat

/-- Write one register of the register stack. -/
def setReg (st : VMState) (i : Nat) (v : Value) : VMState :=
  { st with regs := fun j => if j = i then v else st.regs j }

/-- Dict lookup keyed by symbol name (interning makes name equality
coincide with symbol identity). -/
def globalsLookup : List (String × Value) → String → Option Value
  | [], _ => none
  | (k, v) :: rest, s => if k = s then some v else globalsLookup rest s

/-- Modelled from the spec: `InstructionStream::jump` applies the
instruction's embedded relative offset to the instruction pointer,
which has already been advanced past the jump instruction by the
opcode fetch.  This is the one convention consistent with the
compiler's inter-clause patch formula `next_instruction - address - 1`
(compiler.rs line 106) landing on the start of the next clause. -/
def applyJump (ip : Nat) (offset : Int) : Nat :=
  ((ip : Int) + offset).toNat

/-- EvalStatus of vm.rs: control-flow flag of one executed instruction. -/
inductive Sig where
  | pending
  | ret (v : Value)
  | halt
deriving DecidableEq, Repr

/-- Result of one VM step: `Ok(status)` with the mutated state, or
`Err(RuntimeError)` carrying the state as mutated up to the failure
point (the Rust code mutates in place, so the state at an error is
whatever the instruction had already written — for every error arm in
eval_next_instr that is the fetch-advanced state and nothing more). -/
inductive StepResult where
  | ok (st : VMState) (sig : Sig)
  | err (st : VMState) (msg : String)

/-- The fetch-decode-execute step `eval_next_instr` of vm.rs lines
24-187, arm by arm.  The opcode fetch advances the instruction
pointer; fetching past the end of the stream is an error (modelled
from the spec: bytecode.rs is not under src/). -/
def evalNextInstr (st : VMState) : StepResult :=
  match st.code[st.ip]? with
  | none => .err st "End of instruction stream"
  | some instr =>
    let st := { st with ip := st.ip + 1 }
    match instr with
    | .halt => .ok st .halt
    | .ret reg => .ok st (.ret (st.regs reg))
    | .loadlit acc lit =>
      match st.lits[lit]? with
      | none => .err st "Invalid literal id"
      | some v => .ok (setReg st acc v) .pending
    | .nilTest acc r1 =>
      match st.regs r1 with
      | .nil => .ok (setReg st acc (.sym "true")) .pending
      | _ => .ok (setReg st acc .nil) .pending
    | .atom acc r1 =>
      match derefVal st.heap (st.regs r1) with
      | .nil => .ok (setReg st acc .nil) .pending
      | .pair _ _ => .ok (setReg st acc .nil) .pending
      | _ => .ok (setReg st acc (.sym "true")) .pending
    | .car acc r1 =>
      match derefPair st.heap (st.regs r1) with
      | some (f, _) => .ok (setReg st acc f) .pending
      | none => .err st "Parameter to CAR is not a list"
    | .cdr acc r1 =>
      match derefPair st.heap (st.regs r1) with
      | some (_, s) => .ok (setReg st acc s) .pending
      | none => .err st "Parameter to CDR is not a list"
    | .cons acc r1 r2 =>
      let v1 := st.regs r1
      let v2 := st.regs r2
      let addr := st.heap.length
      let st2 := { st with heap := st.heap ++ [.pairCell v1 v2] }
      .ok (setReg st2 acc (.ref addr)) .pending
    | .eq acc r1 r2 =>
      if st.regs r1 = st.regs r2 then .ok (setReg st acc (.sym "true")) .pending
      else .ok (setReg st acc .nil) .pending
    | .jmp offset => .ok { st with ip := applyJump st.ip offset } .pending
    | .jmpt r1 offset =>
      if st.regs r1 = .sym "true" then .ok { st with ip := applyJump st.ip offset } .pending
      else .ok st .pending
    | .jmpnt r1 offset =>
      if st.regs r1 ≠ .sym "true" then .ok { st with ip := applyJump st.ip offset } .pending
      else .ok st .pending
    | .loadnil r1 => .ok (setReg st r1 .nil) .pending
    | .loadglobal r1 =>
      match st.regs r1 with
      | .sym s =>
        match globalsLookup st.globals s with
        | some binding => .ok (setReg st r1 binding) .pending
        | none => .err st "Symbol not bound to value"
      | _ => .err st "Cannot lookup value for non-symbol type"
    | .storeglobal acc r1 =>
      match st.regs acc with
      | .sym s => .ok { st with globals := (s, st.regs r1) :: st.globals } .pending
      | _ => .err st "Cannot bind value to non-symbol type"

/-- `vm_eval_stream` of vm.rs lines 190-205: execute up to `max_instr`
instructions, returning immediately on Return or Halt (or an error),
and Pending once the budget is exhausted. -/
def vmEvalStream (st : VMState) : Nat → StepResult
  | 0 => .ok st .pending
  | n + 1 =>
    match evalNextInstr st with
    | .ok st2 .pending => vmEvalStream st2 n
    | .ok st2 (.ret v) => .ok st2 (.ret v)
    | .ok st2 .halt => .ok st2 .halt
    | .err st2 m => .err st2 m

/-- Repeatedly call vm_eval_stream with budget `b`, resuming whenever
it reports Pending; the first argument of the recursion is the number
of resumptions allowed (a quantity the Rust caller's loop does not
bound). -/
def driveStream (st : VMState) (b : Nat) : Nat → StepResult
  | 0 => .ok st .pending
  | k + 1 =>
    match vmEvalStream st b with
    | .ok st2 .pending => driveStream st2 b k
    | .ok st2 (.ret v) => .ok st2 (.ret v)
    | .ok st2 .halt => .ok st2 .halt
    | .err st2 m => .err st2 m

/-- Outcome of quick_vm_eval: the returned value, a runtime error, or
`div` when the given number of loop iterations did not suffice (the
Rust loop would simply still be running). -/
inductive EvalOutcome where
  | ok (st : VMState) (v : Value)
  | err (st : VMState) (msg : String)
  | div

/-- The driver loop of `quick_vm_eval` (vm.rs lines 208-227): run
quanta of 1024 instructions while the status is Pending; return the
value on Return and the error "Program halted" on Halt.  The source's
trailing `Err("Unexpected end of evaluation")` line is only reachable
if the loop exits with a non-Pending status, which every arm of the
loop body already returned from, so the embedding has no corresponding
outcome; `fuel` bounds the number of loop iterations. -/
def quickVmEvalLoop (st : VMState) : Nat → EvalOutcome
  | 0 => .div
  | fuel + 1 =>
    match vmEvalStream st 1024 with
    | .ok st2 (.ret v) => .ok st2 v
    | .ok st2 .halt => .err st2 "Program halted"
    | .ok st2 .pending => quickVmEvalLoop st2 fuel
    | .err st2 m => .err st2 m

/-- Initial VM state for a ByteCode object: a fresh InstructionStream
positioned at instruction 0 (quick_vm_eval line 214). -/
def initState (bc : ByteCode) (regs : Nat → Value) (heap : Heap)
    (globals : List (String × Value)) : VMState :=
  { regs := regs, heap := heap, globals := globals,
    code := bc.code, lits := bc.lits, ip := 0 }

/-- `quick_vm_eval` itself, fuelled by a bound on loop iterations. -/
def quickVmEval (bc : ByteCode) (regs : Nat → Value) (heap : Heap)
    (globals : List (String × Value)) (fuel : Nat) : EvalOutcome :=
  quickVmEvalLoop (initState bc regs heap globals) fuel

/-- True exactly on the error outcome the source builds at vm.rs line
226 ("Unexpected end of evaluation"). -/
def EvalOutcome.isUnexpectedEnd : EvalOutcome → Bool
  | .err _ m => m = "Unexpected end of evaluation"
  | _ => false

/-- True exactly on the Pending outcome of a stream call. -/
def StepResult.isPending : StepResult → Bool
  | .ok _ .pending => true
  | _ => false

/-- Compiler state: the ByteCode under construction plus the next free
register of the naive monotone register allocator (struct Compiler of
compiler.rs).  The spec's Register is a small unsigned index; with
bytecode.rs not under src/ its width is modelled as Nat. -/
structure CompState where
  code : List Instr
  lits : List Value
  nextReg : Nat
deriving DecidableEq, Repr

/-- Result of a compiler function: the error message of the returned
`err_eval` RuntimeError, or the new compiler state with the produced
value; `div` is fuel exhaustion of the embedding (the Rust functions
recurse on the pointer structure of the AST, which a cyclic AST would
make diverge). -/
inductive CompRes (α : Type) where
  | div
  | err (msg : String)
  | ok (st : CompState) (res : α)
deriving DecidableEq, Repr

/-- `push_load_literal` (compiler.rs lines 192-201): acquire a
register, append the literal to the literal pool, and append a LOADLIT
of its index into the acquired register. -/
def pushLoadLiteral (st : CompState) (literal : Value) : CompRes Nat :=
  .ok { code := st.code ++ [.loadlit st.nextReg st.lits.length],
        lits := st.lits ++ [literal],
        nextReg := st.nextReg + 1 } st.nextReg

/-- Modelled from the spec: pair.rs is not under src/.
`get_one_from_pair_list` extracts the single operand, the head of the
operand Pair-list; a non-Pair operand list fails. -/
def getOneFromPairList (h : Heap) (params : Value) : Option Value :=
  match derefVal h params with
  | .pair first _ => some first
  | _ => none

/-- Modelled from the spec: pair.rs is not under src/.
`get_two_from_pair_list` extracts the first two operands of the
operand Pair-list; a shorter list fails. -/
def getTwoFromPairList (h : Heap) (params : Value) : Option (Value × Value) :=
  match derefVal h params with
  | .pair first rest =>
    match derefVal h rest with
    | .pair second _ => some (first, second)
    | _ => none
  | _ => none

/-- Overwrite the jump-offset field of the instruction at `address`
(`ByteCode::write_jump_offset`, modelled from the spec: bytecode.rs is
not under src/; the compiler only ever patches jump instructions). -/
def setJumpOffset : Instr → Int → Instr
  | .jmp _, o => .jmp o
  | .jmpt r _, o => .jmpt r o
  | .jmpnt r _, o => .jmpnt r o
  | i, _ => i

/-- Patch the instruction at `address` with the given offset. -/
def writeJumpOffset (st : CompState) (address : Nat) (offset : Nat) : CompState :=
  { st with code := st.code.set address (setJumpOffset (st.code.getD address .halt) (offset : Int)) }

mutual

/-- `Compiler::compile_eval` (compiler.rs lines 32-52): a Pair
dispatches to compile_apply; the Symbol "nil" compiles to a
load-literal of Nil; every other Symbol and every other node compiles
to a load-literal of the node itself. -/
def compileEval (h : Heap) : Nat → CompState → Value → CompRes Nat
  | 0, _, _ => .div
  | fuel + 1, st, astNode =>
    match derefVal h astNode with
    | .pair first second => compileApply h fuel st first second
    | .sym s =>
      if s = "nil" then pushLoadLiteral st .nil
      else pushLoadLiteral st astNode
    | _ => pushLoadLiteral st astNode

/-- `Compiler::compile_apply` (compiler.rs lines 54-75): dispatch on
the operator symbol; unknown symbols and non-symbol operators fail. -/
def compileApply (h : Heap) : Nat → CompState → Value → Value → CompRes Nat
  | 0, _, _, _ => .div
  | fuel + 1, st, function, params =>
    match derefVal h function with
    | .sym s =>
      if s = "quote" then
        match getOneFromPairList h params with
        | some v => pushLoadLiteral st v
        | none => .err "Expected one parameter"
      else if s = "atom" then pushOp2 h fuel st Instr.atom params
      else if s = "car" then pushOp2 h fuel st Instr.car params
      else if s = "cdr" then pushOp2 h fuel st Instr.cdr params
      else if s = "cons" then pushOp3 h fuel st Instr.cons params
      else if s = "cond" then compileApplyCond h fuel st params
      else if s = "eq" then pushOp3 h fuel st Instr.eq params
      else .err "Symbol is not bound to a function"
    | _ => .err "Non symbol in function-call position"

/-- `Compiler::push_op2` (compiler.rs lines 165-175): acquire the
result register, compile the single operand, append the binary-coded
instruction. -/
def pushOp2 (h : Heap) : Nat → CompState → (Nat → Nat → Instr) → Value → CompRes Nat
  | 0, _, _, _ => .div
  | fuel + 1, st, op, params =>
    let result := st.nextReg
    let st := { st with nextReg := st.nextReg + 1 }
    match getOneFromPairList h params with
    | none => .err "Expected one parameter"
    | some p1 =>
      match compileEval h fuel st p1 with
      | .ok st2 reg1 => .ok { st2 with code := st2.code ++ [op result reg1] } result
      | .div => .div
      | .err m => .err m

/-- `Compiler::push_op3` (compiler.rs lines 177-189): acquire the
result register, compile both operands left to right, append the
ternary-coded instruction. -/
def pushOp3 (h : Heap) : Nat → CompState → (Nat → Nat → Nat → Instr) → Value → CompRes Nat
  | 0, _, _, _ => .div
  | fuel + 1, st, op, params =>
    let result := st.nextReg
    let st := { st with nextReg := st.nextReg + 1 }
    match getTwoFromPairList h params with
    | none => .err "Expected two parameters"
    | some (first, second) =>
      match compileEval h fuel st first with
      | .ok st2 reg1 =>
        match compileEval h fuel st2 second with
        | .ok st3 reg2 => .ok { st3 with code := st3.code ++ [op result reg1 reg2] } result
        | .div => .div
        | .err m => .err m
      | .div => .div
      | .err m => .err m

/-- `Compiler::compile_apply_cond` (compiler.rs lines 77-144): compile
the flat clause list, then close out with a default-NIL load if any
clause existed (the offset of the last condition-not-true jump is
computed from next_instruction after pushing the LOADNIL, exactly as
the source does), then patch every end-jump to the next instruction
after the whole construct. -/
def compileApplyCond (h : Heap) : Nat → CompState → Value → CompRes Nat
  | 0, _, _ => .div
  | fuel + 1, st, params =>
    let result := st.nextReg
    match condLoop h fuel st params none [] result with
    | .ok st2 (endJumps, lastCondJump) =>
      let st3 :=
        match lastCondJump with
        | some address =>
          let stA := { st2 with nextReg := result }
          let stB := { stA with code := stA.code ++ [Instr.loadnil stA.nextReg], nextReg := stA.nextReg + 1 }
          writeJumpOffset stB address (stB.code.length - address - 1)
        | none => st2
      let st4 := endJumps.foldl (fun s address => writeJumpOffset s address (s.code.length - address - 1)) st3
      .ok st4 result
    | .div => .div
    | .err m => .err m

/-- The while-loop of compile_apply_cond (compiler.rs lines 94-127):
walk condition/expression pairs of the flat clause list; at the start
of each clause patch the previous condition-not-true jump to land
here; compile the condition into the reused result register, push a
placeholder JMPNT, compile the expression into the same register, and
push a placeholder end-JMP; a clause with a condition but no
expression fails. -/
def condLoop (h : Heap) :
    Nat → CompState → Value → Option Nat → List Nat → Nat → CompRes (List Nat × Option Nat)
  | 0, _, _, _, _, _ => .div
  | fuel + 1, st, head, lastCondJump, endJumps, result =>
    match derefVal h head with
    | .pair cond rest =>
      match derefVal h rest with
      | .pair expr rest2 =>
        let st1 :=
          match lastCondJump with
          | some address => writeJumpOffset st address (st.code.length - address - 1)
          | none => st
        let st2 := { st1 with nextReg := result }
        match compileEval h fuel st2 cond with
        | .ok st3 condResult =>
          let st4 := { st3 with code := st3.code ++ [Instr.jmpnt condResult 0] }
          let lastCondJump2 := some (st4.code.length - 1)
          let st5 := { st4 with nextReg := result }
          match compileEval h fuel st5 expr with
          | .ok st6 _ =>
            let st7 := { st6 with code := st6.code ++ [Instr.jmp 0] }
            condLoop h fuel st7 rest2 lastCondJump2 (endJumps ++ [st7.code.length - 1]) result
          | .div => .div
          | .err m => .err m
        | .div => .div
        | .err m => .err m
      | _ => .err "Unexpected end of cond list"
    | _ => .ok st (endJumps, lastCondJump)

end

/-- The public `compile` entry point together with `Compiler::compile`
(compiler.rs lines 22-30 and 217-226): compile the expression from a
fresh compiler state, append a RETURN of the result register, and
yield the finished ByteCode. -/
def compile (h : Heap) (fuel : Nat) (ast : Value) : CompRes ByteCode :=
  match compileEval h fuel { code := [], lits := [], nextReg := 0 } ast with
  | .ok st resultReg =>
    let st2 := { st with code := st.code ++ [.ret resultReg] }
    .ok st2 { code := st2.code, lits := st2.lits }
  | .div => .div
  | .err m => .err m

/-- The fixed-size bump arena of src/memory.rs (struct Arena): a
buffer of `size` bytes and the current bump offset. -/
structure Arena where
  size : Nat
  bump : Nat
deriving DecidableEq, Repr

/-- Outcome of `Arena::alloc`: either the advanced arena together with
the byte offset the object was written at, or the `panic!("out of
memory")` abort — the source's signature `fn alloc<T>(&self, object:
T) -> Ptr<T, Self>` has no error return at all. -/
inductive AllocResult where
  | panicked
  | ok (a : Arena) (addr : Nat)
deriving DecidableEq, Repr

/-- `Arena::alloc` of src/memory.rs lines 86-106 for an object of
`objectSize` bytes: compute the next bump offset; if it exceeds the
arena size, panic (no state is written); otherwise write the object at
the current offset and advance the bump offset. -/
def Arena.alloc (a : Arena) (objectSize : Nat) : AllocResult :=
  let nextBump := a.bump + objectSize
  if nextBump > a.size then .panicked
  else .ok { a with bump := nextBump } a.bump

/-- True exactly on the panic outcome. -/
def AllocResult.isPanic : AllocResult → Bool
  | .panicked => true
  | _ => false

/-- Map a stream result to the outcome quick_vm_eval's loop body turns
it into: Return becomes the value, Halt becomes the "Program halted"
error, Pending means the loop keeps running. -/
def convertOutcome : StepResult → EvalOutcome
  | .ok st (.ret v) => .ok st v
  | .ok st .halt => .err st "Program halted"
  | .ok _ .pending => .div
  | .err st m => .err st m

/-- Compile an AST and run the resulting ByteCode from a nil-filled
register stack and an empty globals table, projecting out the value
carried by Return (none on any other outcome). -/
def runToReturn (h : Heap) (ast : Value) (cfuel vfuel : Nat) : Option Value :=
  match compile h cfuel ast with
  | .ok _ bc =>
    match vmEvalStream (initState bc (fun _ => .nil) h []) vfuel with
    | .ok _ (.ret v) => some v
    | _ => none
  | _ => none

/-- Heap holding the AST `(cond foo (quote bar))`: one clause whose
condition is the self-evaluating symbol `foo` (never the true-symbol)
and whose expression is `(quote bar)`. -/
def condBugHeap : Heap :=
  [ .pairCell (.sym "bar") .nil,
    .pairCell (.sym "quote") (.ref 0),
    .pairCell (.ref 1) .nil,
    .pairCell (.sym "foo") (.ref 2),
    .pairCell (.sym "cond") (.ref 3) ]

/-- The AST node `(cond foo (quote bar))` in `condBugHeap`. -/
def condBugAst : Value := .ref 4

/-- Heap holding the AST `(cond foo (quote a) true (quote b))`: first
clause's condition is never true, second clause's condition is the
true-symbol. -/
def condTwoClauseHeap : Heap :=
  [ .pairCell (.sym "a") .nil,
    .pairCell (.sym "quote") (.ref 0),
    .pairCell (.sym "b") .nil,
    .pairCell (.sym "quote") (.ref 2),
    .pairCell (.ref 3) .nil,
    .pairCell (.sym "true") (.ref 4),
    .pairCell (.ref 1) (.ref 5),
    .pairCell (.sym "foo") (.ref 6),
    .pairCell (.sym "cond") (.ref 7) ]

/-- A one-instruction program that jumps back to itself: the smallest
bytecode program that never reaches Return or Halt. -/
def loopState : VMState :=
  { regs := fun _ => .nil, heap := [], globals := [],
    code := [.jmp (-1)], lits := [], ip := 0 }

/-- A one-instruction program returning register 0 (which holds Nil),
used to instantiate driver theorems at a concrete input. -/
def retNilState : VMState :=
  { regs := fun _ => .nil, heap := [], globals := [],
    code := [.ret 0], lits := [], ip := 0 }

/-- Registers 3 and 4 hold `x` and `y`; the program conses them twice
into registers 0 and 1 and then compares the two fresh Pairs with EQ
into register 2. -/
def consEqState (x y : Value) : VMState :=
  { regs := fun j => if j = 3 then x else if j = 4 then y else .nil,
    heap := [], globals := [],
    code := [.cons 0 3 4, .cons 1 3 4, .eq 2 0 1], lits := [], ip := 0 }

/-- Registers 3 and 4 hold `x` and `y`; the program conses them into
register 2 and takes CAR of the fresh Pair into register 5. -/
def consCarState (x y : Value) : VMState :=
  { regs := fun j => if j = 3 then x else if j = 4 then y else .nil,
    heap := [], globals := [],
    code := [.cons 2 3 4, .car 5 2], lits := [], ip := 0 }

/-- Registers 3 and 4 hold `x` and `y`; the program conses them into
register 2 and takes CDR of the fresh Pair into register 5. -/
def consCdrState (x y : Value) : VMState :=
  { regs := fun j => if j = 3 then x else if j = 4 then y else .nil,
    heap := [], globals := [],
    code := [.cons 2 3 4, .cdr 5 2], lits := [], ip := 0 }

/-- Splitting a budget: when a stream call exhausts its budget with
Pending, resuming with a further budget continues exactly where one
call with the combined budget would have continued. -/
theorem vmEvalStream_pending_add (m : Nat) :
    ∀ st st2, vmEvalStream st m = .ok st2 .pending →
      ∀ n, vmEvalStream st (m + n) = vmEvalStream st2 n := by
  induction m with
  | zero =>
    intro st st2 h n
    injection h with h1 h2
    subst h1
    rw [Nat.zero_add]
  | succ m ih =>
    intro st st2 h n
    rw [Nat.succ_add]
    simp only [vmEvalStream] at h ⊢
    cases hs : evalNextInstr st with
    | ok stx sig =>
      cases sig with
      | pending =>
        simp only [hs] at h ⊢
        exact ih stx st2 h n
      | ret v => simp only [hs] at h ⊢; cases h
      | halt => simp only [hs] at h ⊢; cases h
    | err stx msg => simp only [hs] at h ⊢; cases h

/-- A stream call that has already stopped (Return, Halt or an error)
gives the same result under any larger budget. -/
theorem vmEvalStream_stable (m : Nat) :
    ∀ st, (vmEvalStream st m).isPending = false →
      ∀ n, vmEvalStream st (m + n) = vmEvalStream st m := by
  induction m with
  | zero => intro st h n; cases h
  | succ m ih =>
    intro st h n
    rw [Nat.succ_add]
    simp only [vmEvalStream] at h ⊢
    cases hs : evalNextInstr st with
    | ok stx sig =>
      cases sig with
      | pending => simp only [hs] at h ⊢; exact ih stx h n
      | ret v => simp only [hs]
      | halt => simp only [hs]
    | err stx msg => simp only [hs]

/-- Driving the stream in `k` quanta of `b` instructions is the same
as one stream call with budget `b * k`. -/
theorem driveStream_eq_mul (b : Nat) :
    ∀ k st, driveStream st b k = vmEvalStream st (b * k) := by
  intro k
  induction k with
  | zero => intro st; rw [Nat.mul_zero]; rfl
  | succ k ih =>
    intro st
    have hbk : b * (k + 1) = b + b * k := by
      rw [Nat.mul_succ, Nat.add_comm]
    rw [hbk]
    simp only [driveStream]
    cases hs : vmEvalStream st b with
    | ok stx sig =>
      cases sig with
      | pending => rw [vmEvalStream_pending_add b st stx hs (b * k)]; exact ih stx
      | ret v => rw [vmEvalStream_stable b st (by rw [hs]; rfl) (b * k), hs]
      | halt => rw [vmEvalStream_stable b st (by rw [hs]; rfl) (b * k), hs]
    | err stx msg => rw [vmEvalStream_stable b st (by rw [hs]; rfl) (b * k), hs]

/-- Claim C2: for every bytecode program that terminates with Return
under some budget, repeatedly calling vm_eval_stream with any positive
max_instr `b` and resuming whenever it returns Pending produces the
identical final Return value (and final state) as the single large
call. -/
theorem vm_eval_stream_interleaving (st stf : VMState) (v : Value) (N b : Nat)
    (hb : 0 < b) (h : vmEvalStream st N = .ok stf (.ret v)) :
    driveStream st b N = .ok stf (.ret v) := by
  rw [driveStream_eq_mul]
  have hle : N ≤ b * N := Nat.le_mul_of_pos_left N hb
  obtain ⟨k, hk⟩ := Nat.exists_eq_add_of_le hle
  rw [hk, vmEvalStream_stable N st (by rw [h]; rfl) k, h]

/-- Witness for C2 at a concrete input: the one-instruction program
`RETURN 0` returns Nil in one step, and driving it with max_instr 1
produces the same Return. -/
theorem vm_eval_stream_interleaving_witness :
    driveStream retNilState 1 1 = .ok { retNilState with ip := 1 } (.ret .nil) :=
  vm_eval_stream_interleaving retNilState { retNilState with ip := 1 } .nil 1 1
    (by decide) (by rfl)

/-- The quick_vm_eval loop is the 1024-quantum driver with each stop
converted to its outcome. -/
theorem quickVmEvalLoop_eq_drive :
    ∀ k st, quickVmEvalLoop st k = convertOutcome (driveStream st 1024 k) := by
  intro k
  induction k with
  | zero => intro st; rfl
  | succ k ih =>
    intro st
    simp only [quickVmEvalLoop, driveStream]
    cases hs : vmEvalStream st 1024 with
    | ok stx sig => cases sig with
      | pending => exact ih stx
      | ret v => rfl
      | halt => rfl
    | err stx msg => rfl

/-- Every error produced by one instruction step carries one of the
messages built inside eval_next_instr; in particular it is never the
driver's "Unexpected end of evaluation". -/
theorem evalNextInstr_err_msg (st st2 : VMState) (m : String)
    (h : evalNextInstr st = .err st2 m) : m ≠ "Unexpected end of evaluation" := by
  unfold evalNextInstr at h
  repeat' first
    | split at h
    | dsimp only at h
  all_goals first
    | exact StepResult.noConfusion h
    | (injection h with h1 h2; subst h2; decide)

/-- Every error produced by a stream call comes from an instruction
step, so it is never "Unexpected end of evaluation". -/
theorem vmEvalStream_err_msg (n : Nat) :
    ∀ st st2 m, vmEvalStream st n = .err st2 m →
      m ≠ "Unexpected end of evaluation" := by
  induction n with
  | zero => intro st st2 m h; cases h
  | succ n ih =>
    intro st st2 m h
    simp only [vmEvalStream] at h
    cases hs : evalNextInstr st with
    | ok stx sig =>
      cases sig with
      | pending => simp only [hs] at h; exact ih stx st2 m h
      | ret v => simp only [hs] at h; cases h
      | halt => simp only [hs] at h; cases h
    | err stx msg =>
      simp only [hs] at h
      injection h with h1 h2
      subst h2
      exact evalNextInstr_err_msg st stx msg hs

/-- The self-jump program makes one step back to exactly the same
state. -/
theorem evalNextInstr_loopState : evalNextInstr loopState = .ok loopState .pending := rfl

/-- The self-jump program is Pending under every budget. -/
theorem vmEvalStream_loopState (n : Nat) :
    vmEvalStream loopState n = .ok loopState .pending := by
  induction n with
  | zero => rfl
  | succ n ih =>
    simp only [vmEvalStream, evalNextInstr_loopState]
    exact ih

/-- The quick_vm_eval loop never finishes on the self-jump program,
whatever iteration bound is allowed. -/
theorem quickVmEvalLoop_loopState (f : Nat) : quickVmEvalLoop loopState f = .div := by
  induction f with
  | zero => rfl
  | succ f ih =>
    simp only [quickVmEvalLoop, vmEvalStream_loopState]
    exact ih

/-- Counterexample to claim C4 as stated: the self-jump program
exhausts every budget without terminating, yet quick_vm_eval never
returns the evaluation error "unexpected end of evaluation" — its loop
simply keeps running (the fuelled embedding reports `div` for every
iteration bound, here 5). -/
theorem quick_vm_eval_no_unexpected_end_counterexample :
    quickVmEvalLoop loopState 5 = .div
  ∧ (quickVmEvalLoop loopState 5).isUnexpectedEnd = false := by
  constructor
  · exact quickVmEvalLoop_loopState 5
  · rw [quickVmEvalLoop_loopState 5]; rfl

/-- Claim C4 as amended: quick_vm_eval drives the instruction stream
in quanta of 1024 instructions; whenever some budget `N` makes the
stream Return a value, the quantised loop returns that same value as
success, and whenever some budget makes it Halt, the loop returns the
evaluation error "Program halted"; but the error "unexpected end of
evaluation" is unreachable — on budget exhaustion the loop resumes the
stream instead, forever, so no iteration bound ever yields that
error. -/
theorem quick_vm_eval_behaviour (st stf : VMState) (v : Value) (N : Nat) :
    (vmEvalStream st N = .ok stf (.ret v) → quickVmEvalLoop st N = .ok stf v)
  ∧ (vmEvalStream st N = .ok stf .halt → quickVmEvalLoop st N = .err stf "Program halted")
  ∧ (∀ f, (quickVmEvalLoop st f).isUnexpectedEnd = false) := by
  have key : ∀ h2 : (vmEvalStream st N).isPending = false,
      quickVmEvalLoop st N = convertOutcome (vmEvalStream st N) := by
    intro h2
    rw [quickVmEvalLoop_eq_drive, driveStream_eq_mul]
    have hle : N ≤ 1024 * N := Nat.le_mul_of_pos_left N (by decide)
    obtain ⟨k, hk⟩ := Nat.exists_eq_add_of_le hle
    rw [hk, vmEvalStream_stable N st h2 k]
  refine ⟨?_, ?_, ?_⟩
  · intro h
    rw [key (by rw [h]; rfl), h]
    rfl
  · intro h
    rw [key (by rw [h]; rfl), h]
    rfl
  · clear key
    intro f
    induction f generalizing st with
    | zero => rfl
    | succ f ih =>
      simp only [quickVmEvalLoop]
      cases hs : vmEvalStream st 1024 with
      | ok stx sig =>
        cases sig with
        | pending => exact ih stx
        | ret w => rfl
        | halt => rfl
      | err stx msg =>
        simp only [EvalOutcome.isUnexpectedEnd]
        have := vmEvalStream_err_msg 1024 st stx msg hs
        simp [this]

/-- Witness for the amended C4 at concrete inputs: the RETURN-Nil
program returns Nil through the quantised loop, and the self-jump
program never produces "Unexpected end of evaluation". -/
theorem quick_vm_eval_behaviour_witness :
    quickVmEvalLoop retNilState 1 = .ok { retNilState with ip := 1 } .nil
  ∧ (quickVmEvalLoop loopState 2).isUnexpectedEnd = false :=
  ⟨(quick_vm_eval_behaviour retNilState { retNilState with ip := 1 } .nil 1).1 (by rfl),
   (quick_vm_eval_behaviour loopState loopState .nil 0).2.2 2⟩

/-- Claim C1, evaluated at the failing input: compiling and executing
`(cond foo (quote bar))`, whose single condition `foo` evaluates to
the symbol `foo` and never to the true-symbol, yields the condition's
value `foo` instead of the claimed Nil.  The compiled code (first
conjunct) shows why: the close-out of compile_apply_cond pushes
`LOADNIL 0` at address 4 and only then computes the offset of the
condition-not-true jump at address 1 from next_instruction, so that
jump gets offset 3 and lands at address 5 (the RETURN), skipping the
Nil fallback, which is unreachable code. -/
theorem cond_default_nil_skipped :
    compile condBugHeap 20 condBugAst =
      .ok { code := [.loadlit 0 0, .jmpnt 0 3, .loadlit 0 1, .jmp 1, .loadnil 0, .ret 0],
            lits := [.sym "foo", .sym "bar"], nextReg := 1 }
          { code := [.loadlit 0 0, .jmpnt 0 3, .loadlit 0 1, .jmp 1, .loadnil 0, .ret 0],
            lits := [.sym "foo", .sym "bar"] }
  ∧ runToReturn condBugHeap condBugAst 20 20 = some (Value.sym "foo")
  ∧ some (Value.sym "foo") ≠ some Value.nil := by
  refine ⟨by decide, rfl, by decide⟩

/-- Supporting evaluation (not itself a claim): the first-true-clause
behaviour of the very same compiled cond construct is correct — in
`(cond foo (quote a) true (quote b))` the first clause's condition is
not the true-symbol, the second clause's is, and the result is the
second expression's value `b`. -/
theorem cond_first_true_clause_eval :
    runToReturn condTwoClauseHeap (.ref 8) 20 30 = some (Value.sym "b") := rfl

/-- Counterexample to claim C3 as stated: allocating 8 bytes in an
arena of capacity 4 does not return any recoverable error value — the
embedded Arena::alloc has no error outcome at all, its Rust signature
being `fn alloc<T>(&self, object: T) -> Ptr<T, Self>` — it panics
(`panic!("out of memory")`, memory.rs line 90). -/
theorem arena_alloc_oom_counterexample :
    Arena.alloc { size := 4, bump := 0 } 8 = .panicked
  ∧ (Arena.alloc { size := 4, bump := 0 } 8).isPanic = true := by decide

/-- Claim C3 as amended: for every allocation request whose size
exceeds the arena's remaining capacity, Arena::alloc panics ("out of
memory") rather than returning — no Ptr is produced, and the panic
happens before the object is written or the bump offset advanced, so
nothing of the arena state is mutated by the failed call. -/
theorem arena_alloc_oom_panics (a : Arena) (objectSize : Nat)
    (h : a.size < a.bump + objectSize) : a.alloc objectSize = .panicked := by
  unfold Arena.alloc
  simp only [gt_iff_lt]
  rw [if_pos h]

/-- Witness for the amended C3 at a concrete input: an arena of
capacity 4 with bump offset 3 panics on a 2-byte request. -/
theorem arena_alloc_oom_panics_witness :
    Arena.alloc { size := 4, bump := 3 } 2 = .panicked :=
  arena_alloc_oom_panics { size := 4, bump := 3 } 2 (by decide)

/-- Claim C5: EQ is reflexive — with both operand registers holding
one same value `a` it writes the interned true-symbol into the
accumulator register — and it writes Nil whenever the operands are not
identity-equal; in particular (third conjunct) two Pairs allocated by
two separate CONS executions with equal contents compare to Nil under
EQ, because they are distinct heap objects at addresses 0 and 1 even
though the two heap cells hold equal contents — equality is decided by
address, never by structural content. -/
theorem eq_identity_semantics (st : VMState) (acc r1 r2 : Nat) (a x y : Value) :
    (st.code[st.ip]? = some (.eq acc r1 r2) → st.regs r1 = a → st.regs r2 = a →
      evalNextInstr st = .ok (setReg { st with ip := st.ip + 1 } acc (.sym "true")) .pending)
  ∧ (st.code[st.ip]? = some (.eq acc r1 r2) → st.regs r1 ≠ st.regs r2 →
      evalNextInstr st = .ok (setReg { st with ip := st.ip + 1 } acc .nil) .pending)
  ∧ (∃ stf, vmEvalStream (consEqState x y) 3 = .ok stf .pending
      ∧ stf.regs 2 = Value.nil
      ∧ stf.regs 0 = .ref 0 ∧ stf.regs 1 = .ref 1
      ∧ stf.heap[0]? = some (.pairCell x y) ∧ stf.heap[1]? = some (.pairCell x y)) := by
  refine ⟨?_, ?_, ?_⟩
  · intro hc h1 h2
    unfold evalNextInstr
    rw [hc]
    dsimp only
    rw [h1, h2]
    simp
  · intro hc hne
    unfold evalNextInstr
    rw [hc]
    dsimp only
    rw [if_neg hne]
  · exact ⟨_, rfl, rfl, rfl, rfl, rfl, rfl⟩

/-- Witness for C5 at concrete inputs: EQ on two registers both
holding Nil writes the true-symbol; EQ on registers holding Nil and
the symbol z writes Nil. -/
theorem eq_identity_semantics_witness :
    evalNextInstr { consEqState .nil .nil with ip := 2 } =
      .ok (setReg { consEqState .nil .nil with ip := 3 } 2 (.sym "true")) .pending
  ∧ evalNextInstr { regs := fun j => if j = 1 then .sym "z" else .nil, heap := [],
                    globals := [], code := [.eq 2 0 1], lits := [], ip := 0 } =
      .ok (setReg { regs := fun j => if j = 1 then .sym "z" else .nil, heap := [],
                    globals := [], code := [.eq 2 0 1], lits := [], ip := 1 } 2 .nil) .pending :=
  ⟨(eq_identity_semantics { consEqState .nil .nil with ip := 2 } 2 0 1 .nil .nil .nil).1
      rfl rfl rfl,
   (eq_identity_semantics { regs := fun j => if j = 1 then .sym "z" else .nil, heap := [],
                            globals := [], code := [.eq 2 0 1], lits := [], ip := 0 }
      2 0 1 .nil .nil .nil).2.1 rfl (by decide)⟩

/-- Claim C6: CONS of x and y followed by CAR (respectively CDR) of
the fresh Pair yields exactly x (respectively y); and CAR or CDR on a
register whose value is not a Pair fails with the corresponding
evaluation error. -/
theorem car_cdr_cons_roundtrip (st : VMState) (acc r1 : Nat) (x y : Value) :
    (∃ stf, vmEvalStream (consCarState x y) 2 = .ok stf .pending ∧ stf.regs 5 = x)
  ∧ (∃ stf, vmEvalStream (consCdrState x y) 2 = .ok stf .pending ∧ stf.regs 5 = y)
  ∧ (st.code[st.ip]? = some (.car acc r1) → derefPair st.heap (st.regs r1) = none →
      evalNextInstr st = .err { st with ip := st.ip + 1 } "Parameter to CAR is not a list")
  ∧ (st.code[st.ip]? = some (.cdr acc r1) → derefPair st.heap (st.regs r1) = none →
      evalNextInstr st = .err { st with ip := st.ip + 1 } "Parameter to CDR is not a list") := by
  refine ⟨⟨_, rfl, rfl⟩, ⟨_, rfl, rfl⟩, ?_, ?_⟩
  · intro hc hd
    unfold evalNextInstr
    rw [hc]
    dsimp only
    rw [hd]
  · intro hc hd
    unfold evalNextInstr
    rw [hc]
    dsimp only
    rw [hd]

/-- Witness for C6 at concrete inputs: CAR and CDR fail on a register
holding Nil (not a Pair). -/
theorem car_cdr_cons_roundtrip_witness :
    evalNextInstr { consCarState .nil .nil with ip := 1 } =
      .err { consCarState .nil .nil with ip := 2 } "Parameter to CAR is not a list"
  ∧ evalNextInstr { consCdrState .nil .nil with ip := 1 } =
      .err { consCdrState .nil .nil with ip := 2 } "Parameter to CDR is not a list" :=
  ⟨(car_cdr_cons_roundtrip { consCarState .nil .nil with ip := 1 } 5 2 .nil .nil).2.2.1
      rfl rfl,
   (car_cdr_cons_roundtrip { consCdrState .nil .nil with ip := 1 } 5 2 .nil .nil).2.2.2
      rfl rfl⟩

/-- Claim C9: executing STOREGLOBAL with the Symbol s in the
accumulator register and v in the operand register binds s to v in the
globals table, and executing LOADGLOBAL on a register holding s
immediately afterwards replaces that register's content with v; while
LOADGLOBAL on a register holding a Symbol with no global binding fails
with an evaluation error. -/
theorem global_binding_roundtrip (st : VMState) (a r q : Nat) (s : String) (v : Value) :
    (st.code[st.ip]? = some (.storeglobal a r) →
     st.code[st.ip + 1]? = some (.loadglobal q) →
     st.regs a = .sym s → st.regs q = .sym s → st.regs r = v →
       evalNextInstr st =
         .ok { st with globals := (s, v) :: st.globals, ip := st.ip + 1 } .pending
       ∧ evalNextInstr { st with globals := (s, v) :: st.globals, ip := st.ip + 1 } =
         .ok (setReg { st with globals := (s, v) :: st.globals, ip := st.ip + 2 } q v) .pending
       ∧ (setReg { st with globals := (s, v) :: st.globals, ip := st.ip + 2 } q v).regs q = v)
  ∧ (st.code[st.ip]? = some (.loadglobal q) → st.regs q = .sym s →
     globalsLookup st.globals s = none →
       evalNextInstr st = .err { st with ip := st.ip + 1 } "Symbol not bound to value") := by
  constructor
  · intro hc1 hc2 ha hq hr
    refine ⟨?_, ?_, ?_⟩
    · unfold evalNextInstr
      rw [hc1]
      dsimp only
      rw [ha]
      dsimp only
      rw [hr]
    · unfold evalNextInstr
      rw [show ({ st with globals := (s, v) :: st.globals, ip := st.ip + 1 } : VMState).code = st.code from rfl,
          show ({ st with globals := (s, v) :: st.globals, ip := st.ip + 1 } : VMState).ip = st.ip + 1 from rfl,
          hc2]
      dsimp only
      rw [show ({ st with globals := (s, v) :: st.globals, ip := st.ip + 1 } : VMState).regs q = st.regs q from rfl,
          hq]
      dsimp only
      rw [show globalsLookup ((s, v) :: st.globals) s = some v from by
            unfold globalsLookup; rw [if_pos rfl]]
    · simp [setReg]
  · intro hc hq hl
    unfold evalNextInstr
    rw [hc]
    dsimp only
    rw [hq]
    dsimp only
    rw [hl]

/-- Witness for C9 at concrete inputs: binding g to the symbol w and
loading it back leaves register 2 holding w; loading the unbound
symbol g from an empty globals table fails. -/
theorem global_binding_roundtrip_witness :
    (setReg { regs := fun j => if j = 0 then .sym "g" else if j = 2 then .sym "g" else .sym "w",
              heap := [], globals := [("g", Value.sym "w")],
              code := [.storeglobal 0 1, .loadglobal 2],
              lits := [], ip := 2 } 2 (.sym "w")).regs 2 = .sym "w"
  ∧ evalNextInstr { regs := fun _ => .sym "g", heap := [], globals := [],
                    code := [.loadglobal 0], lits := [], ip := 0 } =
      .err { regs := fun _ => .sym "g", heap := [], globals := [],
             code := [.loadglobal 0], lits := [], ip := 1 } "Symbol not bound to value" :=
  ⟨((global_binding_roundtrip
      { regs := fun j => if j = 0 then .sym "g" else if j = 2 then .sym "g" else .sym "w",
        heap := [], globals := [], code := [.storeglobal 0 1, .loadglobal 2],
        lits := [], ip := 0 } 0 1 2 "g" (.sym "w")).1 rfl rfl rfl rfl rfl).2.2,
   (global_binding_roundtrip
      { regs := fun _ => .sym "g", heap := [], globals := [],
        code := [.loadglobal 0], lits := [], ip := 0 } 0 1 0 "g" .nil).2 rfl rfl rfl⟩

/-- Claim C10: when STOREGLOBAL fails because the accumulator register
does not hold a Symbol, or LOADGLOBAL fails because its register does
not hold a Symbol or holds a Symbol with no binding, eval_next_instr
returns the error with the globals table and every register unchanged
(only the instruction pointer has advanced past the fetched opcode). -/
theorem global_error_atomicity (st : VMState) (a r q : Nat) (s : String) :
    ((∀ t, st.regs a ≠ .sym t) → st.code[st.ip]? = some (.storeglobal a r) →
      evalNextInstr st = .err { st with ip := st.ip + 1 } "Cannot bind value to non-symbol type"
      ∧ ({ st with ip := st.ip + 1 } : VMState).globals = st.globals
      ∧ ∀ i, ({ st with ip := st.ip + 1 } : VMState).regs i = st.regs i)
  ∧ ((∀ t, st.regs q ≠ .sym t) → st.code[st.ip]? = some (.loadglobal q) →
      evalNextInstr st = .err { st with ip := st.ip + 1 } "Cannot lookup value for non-symbol type"
      ∧ ({ st with ip := st.ip + 1 } : VMState).globals = st.globals
      ∧ ∀ i, ({ st with ip := st.ip + 1 } : VMState).regs i = st.regs i)
  ∧ (st.regs q = .sym s → globalsLookup st.globals s = none →
      st.code[st.ip]? = some (.loadglobal q) →
      evalNextInstr st = .err { st with ip := st.ip + 1 } "Symbol not bound to value"
      ∧ ({ st with ip := st.ip + 1 } : VMState).globals = st.globals
      ∧ ∀ i, ({ st with ip := st.ip + 1 } : VMState).regs i = st.regs i) := by
  refine ⟨?_, ?_, ?_⟩
  · intro hns hc
    unfold evalNextInstr
    rw [hc]
    dsimp only
    cases hv : st.regs a with
    | nil => exact ⟨rfl, rfl, fun i => rfl⟩
    | sym t => exact absurd hv (hns t)
    | ref ad => exact ⟨rfl, rfl, fun i => rfl⟩
  · intro hns hc
    unfold evalNextInstr
    rw [hc]
    dsimp only
    cases hv : st.regs q with
    | nil => exact ⟨rfl, rfl, fun i => rfl⟩
    | sym t => exact absurd hv (hns t)
    | ref ad => exact ⟨rfl, rfl, fun i => rfl⟩
  · intro hq hl hc
    unfold evalNextInstr
    rw [hc]
    dsimp only
    rw [hq]
    dsimp only
    rw [hl]
    exact ⟨rfl, rfl, fun i => rfl⟩

/-- Witness for C10 at concrete inputs: STOREGLOBAL with Nil in the
accumulator, LOADGLOBAL on a register holding Nil, and LOADGLOBAL on
an unbound symbol all fail leaving registers and globals unchanged. -/
theorem global_error_atomicity_witness :
    evalNextInstr { regs := fun _ => .nil, heap := [], globals := [("g", Value.nil)],
                    code := [.storeglobal 0 1], lits := [], ip := 0 } =
      .err { regs := fun _ => .nil, heap := [], globals := [("g", Value.nil)],
             code := [.storeglobal 0 1], lits := [], ip := 1 }
        "Cannot bind value to non-symbol type"
  ∧ evalNextInstr { regs := fun _ => .nil, heap := [], globals := [],
                    code := [.loadglobal 0], lits := [], ip := 0 } =
      .err { regs := fun _ => .nil, heap := [], globals := [],
             code := [.loadglobal 0], lits := [], ip := 1 }
        "Cannot lookup value for non-symbol type"
  ∧ evalNextInstr { regs := fun _ => .sym "u", heap := [], globals := [("g", Value.nil)],
                    code := [.loadglobal 3], lits := [], ip := 0 } =
      .err { regs := fun _ => .sym "u", heap := [], globals := [("g", Value.nil)],
             code := [.loadglobal 3], lits := [], ip := 1 } "Symbol not bound to value" :=
  ⟨((global_error_atomicity
      { regs := fun _ => .nil, heap := [], globals := [("g", Value.nil)],
        code := [.storeglobal 0 1], lits := [], ip := 0 } 0 1 0 "u").1
      (fun t h => Value.noConfusion h) rfl).1,
   ((global_error_atomicity
      { regs := fun _ => .nil, heap := [], globals := [],
        code := [.loadglobal 0], lits := [], ip := 0 } 0 0 0 "u").2.1
      (fun t h => Value.noConfusion h) rfl).1,
   ((global_error_atomicity
      { regs := fun _ => .sym "u", heap := [], globals := [("g", Value.nil)],
        code := [.loadglobal 3], lits := [], ip := 0 } 0 0 3 "u").2.2
      rfl (by decide) rfl).1⟩

/-- Claim C7: compile_eval compiles the Symbol named "nil" to a
load-literal of the Nil value, every other Symbol to a load-literal of
the symbol node itself, and every non-Pair literal atom to a
load-literal of the node itself; in each case the emitted code is the
single LOADLIT instruction — no environment or variable lookup is
performed. -/
theorem compile_eval_self_evaluating (h : Heap) (fuel : Nat) (st : CompState)
    (s : String) (ast : Value) :
    (compileEval h (fuel + 1) st (.sym "nil") =
       .ok { code := st.code ++ [.loadlit st.nextReg st.lits.length],
             lits := st.lits ++ [Value.nil], nextReg := st.nextReg + 1 } st.nextReg)
  ∧ (s ≠ "nil" → compileEval h (fuel + 1) st (.sym s) =
       .ok { code := st.code ++ [.loadlit st.nextReg st.lits.length],
             lits := st.lits ++ [Value.sym s], nextReg := st.nextReg + 1 } st.nextReg)
  ∧ ((∀ f r, derefVal h ast ≠ .pair f r) → (∀ t, ast ≠ .sym t) →
       compileEval h (fuel + 1) st ast =
       .ok { code := st.code ++ [.loadlit st.nextReg st.lits.length],
             lits := st.lits ++ [ast], nextReg := st.nextReg + 1 } st.nextReg) := by
  refine ⟨?_, ?_, ?_⟩
  · simp only [compileEval, derefVal, if_true]
    rfl
  · intro hns
    simp only [compileEval, derefVal]
    rw [if_neg hns]
    rfl
  · intro hnp hns
    simp only [compileEval]
    cases hast : ast with
    | nil => rfl
    | sym t => exact absurd hast (fun he => hns t he)
    | ref ad =>
      subst hast
      simp only [derefVal]
      cases hcell : h[ad]? with
      | none => rfl
      | some cell =>
        cases cell with
        | pairCell pf ps =>
          exact absurd (by simp only [derefVal, hcell]) (hnp pf ps)
        | numCell n => rfl

/-- Witness for C7 at concrete inputs: the symbol foo and the number
literal at heap address 0 are compiled to load-literals of
themselves. -/
theorem compile_eval_self_evaluating_witness :
    compileEval [Cell.numCell 7] 1 { code := [], lits := [], nextReg := 0 } (.sym "foo") =
      .ok { code := [.loadlit 0 0], lits := [.sym "foo"], nextReg := 1 } 0
  ∧ compileEval [Cell.numCell 7] 1 { code := [], lits := [], nextReg := 0 } (.ref 0) =
      .ok { code := [.loadlit 0 0], lits := [.ref 0], nextReg := 1 } 0 :=
  ⟨(compile_eval_self_evaluating [Cell.numCell 7] 0 { code := [], lits := [], nextReg := 0 }
      "foo" .nil).2.1 (by decide),
   (compile_eval_self_evaluating [Cell.numCell 7] 0 { code := [], lits := [], nextReg := 0 }
      "foo" (.ref 0)).2.2 (fun f r hw => by simp [derefVal] at hw)
      (fun t ht => Value.noConfusion ht)⟩

/-- Claim C8: an unknown symbol in operator position, a non-symbol in
operator position, and a malformed cond clause (a clause pair whose
second element is missing) each make compile return a distinct
evaluation error — the error result carries no ByteCode — and the
three messages are pairwise distinct. -/
theorem compile_failure_errors (h : Heap) (f : Nat) (ast fn params c rest : Value) (s : String) :
    (derefVal h ast = .pair (.sym s) params →
      s ≠ "quote" → s ≠ "atom" → s ≠ "car" → s ≠ "cdr" → s ≠ "cons" → s ≠ "cond" → s ≠ "eq" →
      compile h (f + 2) ast = .err "Symbol is not bound to a function")
  ∧ (derefVal h ast = .pair fn params → (∀ t, fn ≠ .sym t) →
      compile h (f + 2) ast = .err "Non symbol in function-call position")
  ∧ (derefVal h ast = .pair (.sym "cond") params →
      derefVal h params = .pair c rest → (∀ u w, derefVal h rest ≠ .pair u w) →
      compile h (f + 4) ast = .err "Unexpected end of cond list")
  ∧ ("Symbol is not bound to a function" ≠ "Non symbol in function-call position"
     ∧ "Symbol is not bound to a function" ≠ "Unexpected end of cond list"
     ∧ "Non symbol in function-call position" ≠ "Unexpected end of cond list") := by
  refine ⟨?_, ?_, ?_, by decide, by decide, by decide⟩
  · intro hd h1 h2 h3 h4 h5 h6 h7
    have hf : f + 2 = (f + 1) + 1 := rfl
    rw [hf]
    unfold compile
    simp only [compileEval]
    rw [hd]
    dsimp only
    simp only [compileApply, derefVal]
    rw [if_neg h1, if_neg h2, if_neg h3, if_neg h4, if_neg h5, if_neg h6, if_neg h7]
  · intro hd hns
    have hf : f + 2 = (f + 1) + 1 := rfl
    rw [hf]
    unfold compile
    simp only [compileEval]
    rw [hd]
    dsimp only
    simp only [compileApply]
    cases hfn : fn with
    | nil => rfl
    | sym t => exact absurd hfn (hns t)
    | ref ad =>
      subst hfn
      simp only [derefVal]
      cases hcell : h[ad]? with
      | none => rfl
      | some cell => cases cell with
        | pairCell pf ps => rfl
        | numCell n => rfl
  · intro hd hp hnr
    have hf : f + 4 = (((f + 1) + 1) + 1) + 1 := rfl
    rw [hf]
    unfold compile
    simp only [compileEval]
    rw [hd]
    dsimp only
    simp only [compileApply, derefVal, if_true]
    simp only [compileApplyCond]
    simp only [condLoop]
    rw [hp]
    dsimp only
    cases hr : derefVal h rest with
    | nil => rfl
    | sym t => rfl
    | pair u w => exact absurd hr (hnr u w)
    | num n => rfl
    | invalid => rfl

/-- Witness for C8 at concrete inputs: `(foo)` hits the unknown-symbol
error, a Pair with Nil in operator position hits the non-symbol error,
and `(cond foo)` hits the malformed-clause error. -/
theorem compile_failure_errors_witness :
    compile [Cell.pairCell (.sym "foo") .nil] 2 (.ref 0) =
      .err "Symbol is not bound to a function"
  ∧ compile [Cell.pairCell .nil .nil] 2 (.ref 0) =
      .err "Non symbol in function-call position"
  ∧ compile [Cell.pairCell (.sym "foo") .nil, Cell.pairCell (.sym "cond") (.ref 0)] 4 (.ref 1) =
      .err "Unexpected end of cond list" :=
  ⟨(compile_failure_errors [Cell.pairCell (.sym "foo") .nil] 0 (.ref 0) .nil .nil .nil .nil
      "foo").1 rfl (by decide) (by decide) (by decide) (by decide) (by decide) (by decide)
      (by decide),
   (compile_failure_errors [Cell.pairCell .nil .nil] 0 (.ref 0) .nil .nil .nil .nil "z").2.1
      rfl (fun t ht => Value.noConfusion ht),
   (compile_failure_errors
      [Cell.pairCell (.sym "foo") .nil, Cell.pairCell (.sym "cond") (.ref 0)] 0 (.ref 1)
      .nil (.ref 0) (.sym "foo") .nil "z").2.2.1
      rfl rfl (fun u w hw => ValView.noConfusion hw)⟩

end EvalRs
